import Mathlib

/-!
Shallow embedding of the dead-stock pipeline in `src/utils/processing.py`
(mahanka-sku-predictor).

Conventions of the embedding:
* pandas numeric cells are idealised as rationals (`Rat`); the real-valued
  logistic risk model (`scipy.special.expit`) is embedded over `ℝ`;
* dates are integer day numbers (`pd.to_datetime` is assumed to succeed, so
  `(max - min).dt.days` is plain integer subtraction);
* a raw SKU cell is either an integer or a string (`SkuVal`); `astype(str)`
  is `SkuVal.toStr`;
* a DataFrame is a list of typed rows; `groupby` keys are collected in first
  occurrence order (the claims under study do not depend on row order);
* derived columns (`Death_Risk_Base`, `Risk_Penalty`, `Death_Risk_Score`) are
  functions of the merged row, mirroring the column assignments in the code;
* `load_data` is modelled against an abstract workbook: a function from
  (sheet name, header offset) to a reading or a raised error (`Except`).
-/

/-- A raw SKU cell before `astype(str)`: pandas object columns may mix
integers and strings. -/
inductive SkuVal where
  | intV (n : Int)
  | strV (s : String)
  deriving DecidableEq

/-- `astype(str)` on a SKU cell (Python `str`). -/
def SkuVal.toStr : SkuVal → String
  | intV n => toString n
  | strV s => s

/-- One row of the `Sales` sheet (`SKU`, `Date`, `Units_Sold`, `Revenue`),
line 45 of `processing.py`. -/
structure SalesRow where
  sku : SkuVal
  date : Int
  units : Rat
  revenue : Rat
  deriving DecidableEq

/-- One row of the `Inventory` sheet (`SKU`, `Current_Stock`, `Cost_Price`,
`Margin`). -/
structure InvRow where
  sku : SkuVal
  stock : Rat
  cost : Rat
  margin : Rat
  deriving DecidableEq

/-- One row of `sales_grouped` after the flatten/rename on line 52 and the
derived columns of lines 55-60. -/
structure Rollup where
  sku : String
  totalUnits : Rat
  totalRevenue : Rat
  minDate : Int
  maxDate : Int
  periodDays : Int
  velocity : Rat
  deriving DecidableEq

/-- The distinct `groupby('SKU')` keys, in first-occurrence order. -/
def skuKeys (sales : List SalesRow) : List SkuVal :=
  (sales.map SalesRow.sku).dedup

/-- The sales rows of one groupby group. -/
def salesGroup (sales : List SalesRow) (k : SkuVal) : List SalesRow :=
  sales.filter (fun s => s.sku == k)

/-- The aggregation of lines 45-60 plus the `astype(str)` of line 64 for one
group: sum of units and revenue, min/max date, `Period_Days` floored to 1
when the computed value is not positive, `Avg_Daily_Velocity`. -/
def mkRollup (sales : List SalesRow) (k : SkuVal) : Rollup :=
  let g := salesGroup sales k
  let dates := g.map SalesRow.date
  let mn := dates.min?.getD 0
  let mx := dates.max?.getD 0
  let pd0 := mx - mn + 1
  let pd := if 0 < pd0 then pd0 else 1
  let tu := (g.map SalesRow.units).sum
  { sku := k.toStr
    totalUnits := tu
    totalRevenue := (g.map SalesRow.revenue).sum
    minDate := mn
    maxDate := mx
    periodDays := pd
    velocity := tu / (pd : Rat) }

/-- `sales_grouped`: one rollup per distinct sales SKU. -/
def skuRollups (sales : List SalesRow) : List Rollup :=
  (skuKeys sales).map (mkRollup sales)

/-- One row of the merged, enriched output table. `minDate?`, `maxDate?`
and `periodDays?` are `none` exactly when the left join found no rollup
(the columns stay NaN after the merge; the code does not fill them). -/
structure OutRow where
  sku : String
  stock : Rat
  cost : Rat
  margin : Rat
  totalUnits : Rat
  totalRevenue : Rat
  velocity : Rat
  minDate? : Option Int
  maxDate? : Option Int
  periodDays? : Option Int
  daysOfCover : Rat
  sellThrough : Rat
  sellingPrice : Rat
  stockValue : Rat
  deriving DecidableEq

/-- Lines 70-94: the zero fill for unmatched items (lines 70-72), the
velocity floor `replace(0, 0.001)` and `Days_of_Cover` (lines 77-78), the
guarded `Sell_Through_Rate` (lines 83-87), `Selling_Price` and
`Stock_Value` (lines 93-94), for one merged row. -/
def enrich (i : InvRow) (o : Option Rollup) : OutRow :=
  let tu := match o with | none => 0 | some ru => ru.totalUnits
  let tr := match o with | none => 0 | some ru => ru.totalRevenue
  let v := match o with | none => 0 | some ru => ru.velocity
  let safeVel := if v = 0 then (1/1000 : Rat) else v
  let flow := tu + i.stock
  let price := i.cost / (1 - i.margin)
  { sku := i.sku.toStr
    stock := i.stock
    cost := i.cost
    margin := i.margin
    totalUnits := tu
    totalRevenue := tr
    velocity := v
    minDate? := o.map Rollup.minDate
    maxDate? := o.map Rollup.maxDate
    periodDays? := o.map Rollup.periodDays
    daysOfCover := i.stock / safeVel
    sellThrough := if 0 < flow then tu / flow else 0
    sellingPrice := price
    stockValue := i.stock * price }

/-- The rollup rows a given (normalized) inventory SKU matches in the
left join of line 67. -/
def matchesFor (rolls : List Rollup) (s : String) : List Rollup :=
  rolls.filter (fun ru => ru.sku == s)

/-- `process_inventory` (lines 35-108): aggregate, left-join inventory with
the rollup on the string-cast SKU, enrich every merged row.  As in
`pd.merge(..., how='left')`, an inventory row with no match yields one
zero-filled row, and one row per match otherwise. -/
def process_inventory (sales : List SalesRow) (inv : List InvRow) : List OutRow :=
  let rolls := skuRollups sales
  inv.flatMap (fun i =>
    let ms := matchesFor rolls i.sku.toStr
    if ms.isEmpty then [enrich i none] else ms.map (fun ru => enrich i (some ru)))

/-- `scipy.special.expit`, the logistic function. -/
noncomputable def expit (x : ℝ) : ℝ := 1 / (1 + Real.exp (-x))

/-- Line 98: `Death_Risk_Base = expit((Days_of_Cover - 60) / 30) * 100`,
as a function of the merged row. -/
noncomputable def deathRiskBase (r : OutRow) : ℝ :=
  expit (((r.daysOfCover : ℝ) - 60) / 30) * 100

/-- Line 101: `Risk_Penalty = 30` when `Avg_Daily_Velocity < 0.5`, else 0. -/
def riskPenalty (r : OutRow) : Rat :=
  if r.velocity < 1/2 then 30 else 0

/-- Lines 103-106: `Death_Risk_Score = clip(base + penalty, 0, 100)`. -/
noncomputable def deathRiskScore (r : OutRow) : ℝ :=
  min 100 (max 0 (deathRiskBase r + (riskPenalty r : ℝ)))

/-- Line 65: `inventory_df['SKU'] = inventory_df['SKU'].astype(str)` on one
row — the in-place normalization of the caller's inventory table. -/
def normalizeInv (i : InvRow) : InvRow := { i with sku := SkuVal.strV i.sku.toStr }

/-- `process_inventory` with its caller-visible argument state made
explicit: the triple (sales table after the in-place `Date` parse of line
41, inventory table after the in-place `SKU` cast of line 65, returned
output table).  In this embedding dates are already parsed integers, so
the line-41 assignment is the identity on the modelled sales table. -/
def processFull (sales : List SalesRow) (inv : List InvRow) :
    List SalesRow × List InvRow × List OutRow :=
  (sales, inv.map normalizeInv, process_inventory sales inv)

/-- A reading of one sheet: the set of column labels it exposes. -/
structure Df where
  cols : List String
  deriving DecidableEq

/-- An abstract workbook: what `pd.read_excel(file, sheet_name, header)`
returns for a sheet name and a header offset — a reading, or a raised
error. -/
structure Workbook where
  read : String → Nat → Except String Df

/-- The `read_sheet` helper of lines 13-26: try header 0; if `SKU` is
missing retry header 1; if still missing return the header-0 reading.
Raised read errors propagate. -/
def read_sheet (wb : Workbook) (sheet : String) : Except String Df :=
  match wb.read sheet 0 with
  | Except.error e => Except.error e
  | Except.ok d0 =>
      if "SKU" ∈ d0.cols then Except.ok d0
      else
        match wb.read sheet 1 with
        | Except.error e => Except.error e
        | Except.ok d1 =>
            if "SKU" ∈ d1.cols then Except.ok d1
            else wb.read sheet 0

/-- `load_data` (lines 6-33): read `Sales` then `Inventory`; any raised
error is captured and returned with no tables (`Except.error`). -/
def load_data (wb : Workbook) : Except String (Df × Df) :=
  match read_sheet wb "Sales" with
  | Except.error e => Except.error e
  | Except.ok s =>
      match read_sheet wb "Inventory" with
      | Except.error e => Except.error e
      | Except.ok i => Except.ok (s, i)

/-- A pandas numeric cell as the arithmetic of lines 74-106 sees it: a
number, or a null/NaN that the ad-hoc validation never inspects. -/
inductive NCell where
  | nan
  | num (x : Rat)
  deriving DecidableEq

/-- NaN-propagating subtraction (pandas/numpy semantics). -/
def NCell.sub : NCell → NCell → NCell
  | num a, num b => num (a - b)
  | _, _ => nan

/-- NaN-propagating multiplication. -/
def NCell.mul : NCell → NCell → NCell
  | num a, num b => num (a * b)
  | _, _ => nan

/-- NaN-propagating division. -/
def NCell.div : NCell → NCell → NCell
  | num a, num b => num (a / b)
  | _, _ => nan

/-- An inventory row whose numeric cells may be null. -/
structure InvRowN where
  sku : SkuVal
  stock : NCell
  cost : NCell
  margin : NCell
  deriving DecidableEq

/-- The metric slice of an output row in the null-aware model. -/
structure OutRowN where
  sku : String
  daysOfCover : NCell
  sellingPrice : NCell
  stockValue : NCell
  deriving DecidableEq

/-- Lines 77-78 and 93-94 over a possibly-null inventory row with no sales
match (so `Avg_Daily_Velocity` is the filled 0 and `safe_velocity` is
0.001): pandas raises nothing, NaN simply flows through the arithmetic. -/
def enrichN (i : InvRowN) : OutRowN :=
  let price := i.cost.div ((NCell.num 1).sub i.margin)
  { sku := i.sku.toStr
    daysOfCover := i.stock.div (NCell.num (1/1000))
    sellingPrice := price
    stockValue := i.stock.mul price }

/-- The null-aware pipeline over never-sold inventory rows: one output row
per input row, unconditionally — the return type has no error outcome. -/
def processN (inv : List InvRowN) : List OutRowN := inv.map enrichN

section Helpers

/-- Unfolding the join one inventory row at a time. -/
lemma process_inventory_cons (sales : List SalesRow) (i : InvRow) (inv : List InvRow) :
    process_inventory sales (i :: inv) =
      (let ms := matchesFor (skuRollups sales) i.sku.toStr
        if ms.isEmpty then [enrich i none] else ms.map (fun ru => enrich i (some ru)))
        ++ process_inventory sales inv := by
  simp only [process_inventory, List.flatMap_cons]

/-- Every output row of the join comes from an inventory row, either
unmatched (zero-filled) or paired with one of its matching rollups. -/
lemma mem_process_inventory {sales : List SalesRow} {inv : List InvRow} {r : OutRow}
    (h : r ∈ process_inventory sales inv) :
    ∃ i ∈ inv,
      (matchesFor (skuRollups sales) i.sku.toStr = [] ∧ r = enrich i none) ∨
        ∃ ru ∈ matchesFor (skuRollups sales) i.sku.toStr, r = enrich i (some ru) := by
  simp only [process_inventory, List.mem_flatMap] at h
  obtain ⟨i, hi, hr⟩ := h
  refine ⟨i, hi, ?_⟩
  by_cases hms : (matchesFor (skuRollups sales) i.sku.toStr).isEmpty
  · rw [if_pos hms] at hr
    exact Or.inl ⟨List.isEmpty_iff.mp hms, (List.mem_singleton.mp hr)⟩
  · rw [if_neg hms] at hr
    obtain ⟨ru, hru, hr⟩ := List.mem_map.mp hr
    exact Or.inr ⟨ru, hru, hr.symm⟩

/-- A rollup matched by the join belongs to the rollup table and carries the
matched (normalized) SKU. -/
lemma matchesFor_mem {rolls : List Rollup} {s : String} {ru : Rollup}
    (h : ru ∈ matchesFor rolls s) : ru ∈ rolls ∧ ru.sku = s := by
  have h2 := List.mem_filter.mp h
  exact ⟨h2.1, by simpa using h2.2⟩

/-- The fields of a zero-filled (unmatched) output row. -/
lemma enrich_none_fields (i : InvRow) :
    (enrich i none).sku = i.sku.toStr ∧ (enrich i none).stock = i.stock ∧
      (enrich i none).totalUnits = 0 ∧ (enrich i none).totalRevenue = 0 ∧
      (enrich i none).velocity = 0 ∧
      (enrich i none).daysOfCover = i.stock / (1/1000) := by
  refine ⟨rfl, rfl, rfl, rfl, rfl, ?_⟩
  simp [enrich]

/-- The fields of a matched output row. -/
lemma enrich_some_fields (i : InvRow) (ru : Rollup) :
    (enrich i (some ru)).sku = i.sku.toStr ∧ (enrich i (some ru)).stock = i.stock ∧
      (enrich i (some ru)).totalUnits = ru.totalUnits ∧
      (enrich i (some ru)).velocity = ru.velocity := by
  exact ⟨rfl, rfl, rfl, rfl⟩

/-- Every rollup is the aggregation of one distinct sales SKU. -/
lemma mem_skuRollups {sales : List SalesRow} {ru : Rollup} (h : ru ∈ skuRollups sales) :
    ∃ k ∈ skuKeys sales, ru = mkRollup sales k := by
  obtain ⟨k, hk, he⟩ := List.mem_map.mp h
  exact ⟨k, hk, he.symm⟩

/-- With non-negative unit counts, every rollup's total is non-negative. -/
lemma rollup_totalUnits_nonneg {sales : List SalesRow} {ru : Rollup}
    (hru : ru ∈ skuRollups sales) (hu : ∀ s ∈ sales, 0 ≤ s.units) :
    0 ≤ ru.totalUnits := by
  obtain ⟨k, _, rfl⟩ := mem_skuRollups hru
  apply List.sum_nonneg
  intro x hx
  obtain ⟨s, hs, rfl⟩ := List.mem_map.mp hx
  exact hu s (List.mem_of_mem_filter hs)

/-- When the string cast is injective on the sales SKUs, the rollup table
has pairwise distinct (normalized) SKUs. -/
lemma rollup_skus_nodup {sales : List SalesRow}
    (hinj : ∀ a ∈ sales.map SalesRow.sku, ∀ b ∈ sales.map SalesRow.sku,
      SkuVal.toStr a = SkuVal.toStr b → a = b) :
    ((skuRollups sales).map Rollup.sku).Nodup := by
  have hmap : (skuRollups sales).map Rollup.sku = (skuKeys sales).map SkuVal.toStr := by
    simp only [skuRollups, List.map_map]
    exact List.map_congr_left fun a _ => rfl
  rw [hmap]
  refine List.Nodup.map_on ?_ (List.nodup_dedup _)
  intro a ha b hb hab
  exact hinj a (List.mem_dedup.mp ha) b (List.mem_dedup.mp hb) hab

/-- A filter over a list with pairwise distinct SKUs keeps at most one row. -/
lemma length_matchesFor_le_one {rolls : List Rollup}
    (h : (rolls.map Rollup.sku).Nodup) (s : String) :
    (matchesFor rolls s).length ≤ 1 := by
  induction rolls with
  | nil => simp [matchesFor]
  | cons r rs ih =>
      rw [List.map_cons, List.nodup_cons] at h
      by_cases hr : r.sku = s
      · have hnil : matchesFor rs s = [] := by
          apply List.filter_eq_nil_iff.mpr
          intro ru hru hbeq
          exact h.1 (by
            rw [List.mem_map]
            exact ⟨ru, hru, by rw [eq_of_beq hbeq, hr]⟩)
        have hcons : matchesFor (r :: rs) s = r :: matchesFor rs s := by
          simp [matchesFor, List.filter_cons, hr]
        rw [hcons, hnil]
        simp
      · have : matchesFor (r :: rs) s = matchesFor rs s := by
          simp [matchesFor, List.filter_cons, hr]
        rw [this]
        exact ih h.2

/-- The clip to `[0, 100]` of line 106 always lands in `[0, 100]`. -/
lemma clip_mem (y : ℝ) : 0 ≤ min 100 (max 0 y) ∧ min 100 (max 0 y) ≤ 100 :=
  ⟨le_min (by norm_num) (le_max_left 0 y), min_le_left _ _⟩

/-- The logistic function is positive. -/
lemma expit_pos (x : ℝ) : 0 < expit x := by
  unfold expit
  positivity

/-- The logistic function stays below 1. -/
lemma expit_lt_one (x : ℝ) : expit x < 1 := by
  unfold expit
  rw [div_lt_one (by positivity)]
  linarith [Real.exp_pos (-x)]

lemma exp_one_sq : Real.exp 2 = Real.exp 1 * Real.exp 1 := by
  rw [← Real.exp_add]
  norm_num

lemma exp_two_gt : (7389056 / 1000000 : ℝ) < Real.exp 2 := by
  rw [exp_one_sq]
  nlinarith [Real.exp_one_gt_d9, Real.exp_pos 1]

lemma exp_two_lt : Real.exp 2 < 73890561 / 10000000 := by
  rw [exp_one_sq]
  nlinarith [Real.exp_one_lt_d9, Real.exp_pos 1]

lemma exp_221_lt : Real.exp (2/21) < 11/10 := by
  by_contra h
  push_neg at h
  have hp : ((11:ℝ)/10) ^ (21:ℕ) ≤ Real.exp (2/21) ^ (21:ℕ) :=
    pow_le_pow_left₀ (by norm_num) h 21
  rw [← Real.exp_nat_mul] at hp
  norm_num at hp
  linarith [exp_two_lt]

lemma exp_221_gt : (1097/1000 : ℝ) < Real.exp (2/21) := by
  by_contra h
  push_neg at h
  have hp : Real.exp (2/21) ^ (21:ℕ) ≤ ((1097:ℝ)/1000) ^ (21:ℕ) :=
    pow_le_pow_left₀ (le_of_lt (Real.exp_pos _)) h 21
  rw [← Real.exp_nat_mul] at hp
  norm_num at hp
  linarith [exp_two_gt]

/-- `Period_Days` is always at least 1 (the line-57 floor). -/
lemma mkRollup_periodDays_ge_one (sales : List SalesRow) (k : SkuVal) :
    1 ≤ (mkRollup sales k).periodDays := by
  simp only [mkRollup]
  split <;> omega

end Helpers

section ConcreteInputs

/-- A never-sold inventory row used in concrete runs. -/
def invB : InvRow := ⟨SkuVal.strV "B2", 10, 5, 0⟩

/-- A one-row sales table used in concrete runs. -/
def c4sales : List SalesRow := [⟨SkuVal.strV "A", 0, 2, 3⟩]

/-- An unmatched inventory row with positive but fractional stock. -/
def c3inv : InvRow := ⟨SkuVal.strV "B", 1/100, 5, 0⟩

/-- A never-sold inventory row with zero stock. -/
def invZ : InvRow := ⟨SkuVal.strV "Z", 0, 5, 0⟩

/-- An inventory row with a string SKU, for the purity run. -/
def invS : InvRow := ⟨SkuVal.strV "S", 3, 2, 0⟩

/-- Scenario A sales: item A1 sold on day 0 (Jan 1), day 9 (Jan 10) and
day 19 (Jan 20). -/
def scenA_sales : List SalesRow :=
  [⟨SkuVal.strV "A1", 0, 10, 100⟩, ⟨SkuVal.strV "A1", 9, 20, 200⟩,
    ⟨SkuVal.strV "A1", 19, 5, 50⟩]

/-- Scenario A inventory row: stock 100, cost 40, margin 0.5. -/
def scenA_i : InvRow := ⟨SkuVal.strV "A1", 100, 40, 1/2⟩

/-- Scenario A rollup: the aggregation of the A1 sales. -/
def scenA_ru : Rollup := mkRollup scenA_sales (SkuVal.strV "A1")

/-- Scenario A output row. -/
def scenA_row : OutRow := enrich scenA_i (some scenA_ru)

/-- The header-0 Sales reading of the concrete workbook. -/
def dfSales : Df := ⟨["SKU", "Date", "Units_Sold", "Revenue"]⟩

/-- The header-0 Inventory reading of the concrete workbook. -/
def dfInv : Df := ⟨["SKU", "Current_Stock", "Cost_Price", "Margin"]⟩

/-- A concrete workbook whose two sheets read correctly at header 0. -/
def wbA : Workbook :=
  ⟨fun sheet _ => if sheet = "Sales" then Except.ok dfSales else Except.ok dfInv⟩

end ConcreteInputs

section Claims

/-- C1: for every output row of `process_inventory`, the risk score is
`clamp(logistic((days_of_cover - 60) / 30) * 100 + penalty, 0, 100)` with
`penalty = 30` exactly when `avg_daily_velocity < 0.5` and `0` otherwise;
consequently the score lies in the closed interval `[0, 100]`. -/
theorem c1_death_risk_score (sales : List SalesRow) (inv : List InvRow) (r : OutRow)
    (_hr : r ∈ process_inventory sales inv) :
    deathRiskScore r =
      min 100 (max 0
        (1 / (1 + Real.exp (-(((r.daysOfCover : ℝ) - 60) / 30))) * 100 +
          (if r.velocity < 1/2 then (30 : ℝ) else 0))) ∧
    0 ≤ deathRiskScore r ∧ deathRiskScore r ≤ 100 := by
  refine ⟨?_, (clip_mem _).1, (clip_mem _).2⟩
  unfold deathRiskScore deathRiskBase expit riskPenalty
  rw [apply_ite (fun q : Rat => (q : ℝ))]
  norm_num

/-- C1 witness: a concrete run. -/
theorem c1_death_risk_score_witness :
    0 ≤ deathRiskScore (enrich invB none) ∧ deathRiskScore (enrich invB none) ≤ 100 :=
  (c1_death_risk_score [] [invB] (enrich invB none)
    (by simp [process_inventory, skuRollups, skuKeys, matchesFor])).2

/-- C4: for every aggregated sales SKU, `period_days` is
`(max_date - min_date) + 1` floored to 1 when that value is not positive,
hence always at least 1, and `avg_daily_velocity` is
`total_units_sold / period_days`, which is non-negative whenever all
`units_sold` inputs are non-negative. -/
theorem c4_period_days_velocity (sales : List SalesRow) (ru : Rollup)
    (h : ru ∈ skuRollups sales) (hu : ∀ s ∈ sales, 0 ≤ s.units) :
    ru.periodDays =
      (if 0 < ru.maxDate - ru.minDate + 1 then ru.maxDate - ru.minDate + 1 else 1) ∧
    1 ≤ ru.periodDays ∧
    ru.velocity = ru.totalUnits / (ru.periodDays : Rat) ∧
    0 ≤ ru.velocity := by
  have htu : 0 ≤ ru.totalUnits := rollup_totalUnits_nonneg h hu
  obtain ⟨k, hk, rfl⟩ := mem_skuRollups h
  have hpd : 1 ≤ (mkRollup sales k).periodDays := mkRollup_periodDays_ge_one sales k
  refine ⟨rfl, hpd, rfl, ?_⟩
  show 0 ≤ (mkRollup sales k).totalUnits / ((mkRollup sales k).periodDays : Rat)
  apply div_nonneg htu
  exact_mod_cast le_trans (by norm_num : (0:Int) ≤ 1) hpd

/-- C4 witness: a concrete one-row sales table. -/
theorem c4_period_days_velocity_witness :
    1 ≤ (mkRollup c4sales (SkuVal.strV "A")).periodDays ∧
      0 ≤ (mkRollup c4sales (SkuVal.strV "A")).velocity := by
  have h : mkRollup c4sales (SkuVal.strV "A") ∈ skuRollups c4sales := by
    simp [skuRollups, skuKeys, c4sales]
  have hu : ∀ s ∈ c4sales, 0 ≤ s.units := by
    intro s hs
    simp only [c4sales, List.mem_singleton] at hs
    subst hs
    norm_num
  exact ⟨(c4_period_days_velocity c4sales _ h hu).2.1,
    (c4_period_days_velocity c4sales _ h hu).2.2.2⟩

/-- C2 (amended): whenever the string cast is injective on the sales SKUs
(in particular whenever the SKU cells are already strings), the output has
exactly one row per inventory row.  (Without that proviso the groupby keys
are formed before the string cast, so two distinct raw SKUs can collapse to
the same normalized key and duplicate an inventory row — see the
counterexample.) -/
theorem c2_row_count (sales : List SalesRow) (inv : List InvRow)
    (hinj : ∀ a ∈ sales.map SalesRow.sku, ∀ b ∈ sales.map SalesRow.sku,
      SkuVal.toStr a = SkuVal.toStr b → a = b) :
    (process_inventory sales inv).length = inv.length := by
  have hnd := rollup_skus_nodup hinj
  induction inv with
  | nil => rfl
  | cons i inv ih =>
      rw [process_inventory_cons, List.length_append, ih, List.length_cons]
      by_cases hms : (matchesFor (skuRollups sales) i.sku.toStr).isEmpty
      · rw [if_pos hms]
        simp only [List.length_singleton]
        omega
      · rw [if_neg hms, List.length_map]
        have h1 := length_matchesFor_le_one hnd (i.sku.toStr)
        have h2 : (matchesFor (skuRollups sales) i.sku.toStr) ≠ [] := by
          simpa [List.isEmpty_iff] using hms
        have h3 := List.length_pos.mpr h2
        omega

/-- C2 witness: a concrete run with string SKUs. -/
theorem c2_row_count_witness :
    (process_inventory c4sales [invB]).length = 1 :=
  c2_row_count c4sales [invB] (by decide)

/-- C2 counterexample: the sales SKUs `1` (integer cell) and `"1"` (string
cell) form two distinct groupby groups whose rollups both get the
normalized key `"1"`, so the single inventory row `"1"` is duplicated by
the left join: 2 output rows from 1 inventory row. -/
theorem c2_counterexample :
    (process_inventory
        [⟨SkuVal.intV 1, 0, 1, 1⟩, ⟨SkuVal.strV "1", 0, 2, 2⟩]
        [⟨SkuVal.strV "1", 5, 1, 0⟩]).length = 2 ∧
      ([⟨SkuVal.strV "1", 5, 1, 0⟩] : List InvRow).length = 1 :=
  ⟨by decide, rfl⟩

/-- C3 (amended): an inventory item whose normalized SKU matches no rollup
row gets `total_units_sold = 0`, `total_revenue = 0`,
`avg_daily_velocity = 0`, `days_of_cover = current_stock / 0.001`, and its
score is clamped at exactly 100 whenever `current_stock ≥ 1` (for
`0 < current_stock < 1` the cover can be small enough that the score stays
below 100 — see the counterexample). -/
theorem c3_unmatched_item (sales : List SalesRow) (inv : List InvRow) (r : OutRow)
    (hr : r ∈ process_inventory sales inv)
    (hnm : ∀ ru ∈ skuRollups sales, ru.sku ≠ r.sku) :
    r.totalUnits = 0 ∧ r.totalRevenue = 0 ∧ r.velocity = 0 ∧
    r.daysOfCover = r.stock / (1/1000) ∧
    (1 ≤ r.stock → deathRiskScore r = 100) := by
  obtain ⟨i, hi, hcase⟩ := mem_process_inventory hr
  rcases hcase with ⟨hms, rfl⟩ | ⟨ru, hru, rfl⟩
  swap
  · exact absurd (matchesFor_mem hru).2 (hnm ru (matchesFor_mem hru).1)
  refine ⟨rfl, rfl, rfl, (enrich_none_fields i).2.2.2.2.2, ?_⟩
  intro hstock
  have hstock' : (1:Rat) ≤ i.stock := hstock
  have hcov : (enrich i none).daysOfCover = i.stock * 1000 := by
    rw [(enrich_none_fields i).2.2.2.2.2]
    show i.stock / (1/1000) = i.stock * 1000
    rw [div_eq_mul_inv]
    norm_num
  have hpen : riskPenalty (enrich i none) = 30 := by
    have hv : (enrich i none).velocity = 0 := rfl
    unfold riskPenalty
    rw [hv]
    norm_num
  have hxge : (1:ℝ) ≤ (((enrich i none).daysOfCover : ℝ) - 60) / 30 := by
    rw [hcov]
    have h1 : (1:ℝ) ≤ (i.stock : ℝ) := by exact_mod_cast hstock'
    rw [le_div_iff₀ (by norm_num : (0:ℝ) < 30)]
    push_cast
    nlinarith
  set x : ℝ := (((enrich i none).daysOfCover : ℝ) - 60) / 30 with hxdef
  have hu : Real.exp (-x) ≤ Real.exp (-1) := Real.exp_le_exp.mpr (by linarith)
  have hu2 : Real.exp (-1) < 3/7 := by
    have ha : 0 < Real.exp (-1) := Real.exp_pos _
    have key : Real.exp (-1) * Real.exp 1 = 1 := by
      rw [← Real.exp_add]
      norm_num
    nlinarith [Real.exp_one_gt_d9]
  have hd : (0:ℝ) < 1 + Real.exp (-x) := by positivity
  have hexpit : (7/10 : ℝ) ≤ expit x := by
    unfold expit
    rw [le_div_iff₀ hd]
    linarith
  have hb : (100:ℝ) ≤ deathRiskBase (enrich i none) + (riskPenalty (enrich i none) : ℝ) := by
    unfold deathRiskBase
    rw [hpen]
    push_cast
    have : expit x * 100 + 30 ≥ 100 := by linarith
    exact this
  unfold deathRiskScore
  rw [max_eq_right (by linarith : (0:ℝ) ≤ deathRiskBase (enrich i none) +
    (riskPenalty (enrich i none) : ℝ))]
  exact min_eq_left hb

/-- C3 witness: a never-sold item with stock 10 saturates at score 100. -/
theorem c3_unmatched_item_witness :
    deathRiskScore (enrich invB none) = 100 :=
  (c3_unmatched_item [] [invB] (enrich invB none)
      (by simp [process_inventory, skuRollups, skuKeys, matchesFor])
      (by simp [skuRollups, skuKeys])).2.2.2.2
    (by norm_num [enrich, invB])

/-- C3 counterexample: an unmatched item with `current_stock = 0.01 > 0`
has `days_of_cover = 10` and a score strictly below 100, refuting
"clamped at exactly 100 whenever current_stock > 0". -/
theorem c3_counterexample :
    process_inventory [] [c3inv] = [enrich c3inv none] ∧
    (0:Rat) < c3inv.stock ∧
    (∀ ru ∈ skuRollups ([] : List SalesRow), ru.sku ≠ (enrich c3inv none).sku) ∧
    deathRiskScore (enrich c3inv none) < 100 := by
  refine ⟨rfl, by norm_num [c3inv], by simp [skuRollups, skuKeys], ?_⟩
  have hcov : (enrich c3inv none).daysOfCover = 10 := by
    show ((1:Rat)/100) / (1/1000) = 10
    norm_num
  have hpen : riskPenalty (enrich c3inv none) = 30 := by
    unfold riskPenalty
    norm_num [enrich, c3inv]
  have harg : (((enrich c3inv none).daysOfCover : ℝ) - 60) / 30 = -(5/3) := by
    rw [hcov]
    push_cast
    norm_num
  have hexp : (3/7:ℝ) < Real.exp (5/3) := by
    linarith [Real.add_one_le_exp (5/3 : ℝ)]
  have hd : (0:ℝ) < 1 + Real.exp (5/3) := by positivity
  have hlt : expit (-(5/3)) < 7/10 := by
    unfold expit
    rw [neg_neg, div_lt_iff₀ hd]
    linarith
  unfold deathRiskScore deathRiskBase
  rw [hpen, harg]
  push_cast
  have hmax : max 0 (expit (-(5/3)) * 100 + 30) < 100 := by
    apply max_lt (by norm_num)
    linarith
  calc min 100 (max 0 (expit (-(5/3)) * 100 + 30))
      ≤ max 0 (expit (-(5/3)) * 100 + 30) := min_le_right _ _
    _ < 100 := hmax

/-- C5: for every output row, the sell-through rate is
`total_units_sold / (total_units_sold + current_stock)` when that
denominator is positive and `0` otherwise (so the all-zero case divides by
nothing), and under non-negative units and stock it lies in `[0, 1]`. -/
theorem c5_sell_through_rate (sales : List SalesRow) (inv : List InvRow) (r : OutRow)
    (hr : r ∈ process_inventory sales inv)
    (hu : ∀ s ∈ sales, 0 ≤ s.units) (hs : ∀ i ∈ inv, 0 ≤ i.stock) :
    r.sellThrough =
      (if 0 < r.totalUnits + r.stock then r.totalUnits / (r.totalUnits + r.stock) else 0) ∧
    (r.totalUnits = 0 ∧ r.stock = 0 → r.sellThrough = 0) ∧
    0 ≤ r.sellThrough ∧ r.sellThrough ≤ 1 := by
  obtain ⟨i, hi, hcase⟩ := mem_process_inventory hr
  have hstock : 0 ≤ r.stock := by
    rcases hcase with ⟨_, rfl⟩ | ⟨ru, _, rfl⟩ <;> exact hs i hi
  have htu : 0 ≤ r.totalUnits := by
    rcases hcase with ⟨_, rfl⟩ | ⟨ru, hru, rfl⟩
    · exact le_refl 0
    · exact rollup_totalUnits_nonneg (matchesFor_mem hru).1 hu
  have hform : r.sellThrough =
      (if 0 < r.totalUnits + r.stock then r.totalUnits / (r.totalUnits + r.stock) else 0) := by
    rcases hcase with ⟨_, rfl⟩ | ⟨ru, _, rfl⟩ <;> rfl
  refine ⟨hform, ?_, ?_, ?_⟩
  · rintro ⟨h1, h2⟩
    rw [hform, h1, h2]
    norm_num
  · rw [hform]
    split_ifs with hf
    · exact div_nonneg htu (by linarith)
    · exact le_refl 0
  · rw [hform]
    split_ifs with hf
    · rw [div_le_one hf]
      linarith
    · exact zero_le_one

/-- C5 witness: a concrete run with non-negative inputs. -/
theorem c5_sell_through_rate_witness :
    0 ≤ (enrich invB none).sellThrough ∧ (enrich invB none).sellThrough ≤ 1 :=
  (c5_sell_through_rate c4sales [invB] (enrich invB none)
      (by simp [process_inventory, skuRollups, skuKeys, matchesFor, c4sales, invB,
        mkRollup, salesGroup, SkuVal.toStr])
      (by intro s hs
          simp only [c4sales, List.mem_singleton] at hs
          subst hs
          norm_num)
      (by intro i hi
          simp only [List.mem_singleton] at hi
          subst hi
          norm_num [invB])).2.2

/-- C6: `load_data` reads each sheet with header 0; retries header 1 when
the identifier column `SKU` is absent; falls back to the header-0 reading
when neither offset exposes it; and any raised read error is captured and
returned with no tables at all (all-or-nothing). -/
theorem c6_load_data (wb : Workbook) :
    (∀ s d0, wb.read s 0 = Except.ok d0 → "SKU" ∈ d0.cols →
      read_sheet wb s = Except.ok d0) ∧
    (∀ s d0 d1, wb.read s 0 = Except.ok d0 → "SKU" ∉ d0.cols →
      wb.read s 1 = Except.ok d1 → "SKU" ∈ d1.cols →
      read_sheet wb s = Except.ok d1) ∧
    (∀ s d0 d1, wb.read s 0 = Except.ok d0 → "SKU" ∉ d0.cols →
      wb.read s 1 = Except.ok d1 → "SKU" ∉ d1.cols →
      read_sheet wb s = Except.ok d0) ∧
    (∀ s e, wb.read s 0 = Except.error e → read_sheet wb s = Except.error e) ∧
    (∀ s d0 e, wb.read s 0 = Except.ok d0 → "SKU" ∉ d0.cols →
      wb.read s 1 = Except.error e → read_sheet wb s = Except.error e) ∧
    (∀ sd di, read_sheet wb "Sales" = Except.ok sd →
      read_sheet wb "Inventory" = Except.ok di →
      load_data wb = Except.ok (sd, di)) ∧
    (∀ e, read_sheet wb "Sales" = Except.error e → load_data wb = Except.error e) ∧
    (∀ sd e, read_sheet wb "Sales" = Except.ok sd →
      read_sheet wb "Inventory" = Except.error e →
      load_data wb = Except.error e) := by
  refine ⟨?_, ?_, ?_, ?_, ?_, ?_, ?_, ?_⟩
  · intro s d0 h0 hm
    simp [read_sheet, h0, hm]
  · intro s d0 d1 h0 hm0 h1 hm1
    simp [read_sheet, h0, hm0, h1, hm1]
  · intro s d0 d1 h0 hm0 h1 hm1
    simp [read_sheet, h0, hm0, h1, hm1]
  · intro s e h0
    simp [read_sheet, h0]
  · intro s d0 e h0 hm0 h1
    simp [read_sheet, h0, hm0, h1]
  · intro sd di hs hi
    simp [load_data, hs, hi]
  · intro e hs
    simp [load_data, hs]
  · intro sd e hs hi
    simp [load_data, hs, hi]

/-- C6 witness: a workbook whose sheets expose `SKU` at header 0. -/
theorem c6_load_data_witness :
    read_sheet wbA "Sales" = Except.ok dfSales ∧
      load_data wbA = Except.ok (dfSales, dfInv) := by
  have h := c6_load_data wbA
  refine ⟨h.1 "Sales" dfSales rfl (by decide), ?_⟩
  exact h.2.2.2.2.2.1 dfSales dfInv
    (h.1 "Sales" dfSales rfl (by decide))
    (h.1 "Inventory" dfInv rfl (by decide))

/-- C7 (code bug): a null `Current_Stock` that survives validation is
silently coerced, not rejected: the pipeline emits an output row whose
`Days_of_Cover` and `Stock_Value` are NaN — and its return type has no
error outcome, so no `ComputationError` naming the item can ever be
raised. -/
theorem c7_null_stock_not_rejected :
    processN [⟨SkuVal.strV "X", NCell.nan, NCell.num 5, NCell.num 0⟩] =
      [⟨"X", NCell.nan, NCell.num 5, NCell.nan⟩] ∧
    (processN [⟨SkuVal.strV "X", NCell.nan, NCell.num 5, NCell.num 0⟩]).length = 1 := by
  constructor
  · simp only [processN, List.map_cons, List.map_nil, enrichN]
    norm_num [NCell.div, NCell.sub, NCell.mul, SkuVal.toStr]
  · rfl

/-- C8 (amended): the output is a pure function of the two input tables
(the third component below), and when every inventory SKU is already a
string (and dates already parsed, as in this embedding) the inputs are left
unchanged; but in general the code casts the inventory SKU column in
place, so "leaves the input tables unchanged" fails — see the
counterexample. -/
theorem c8_pure_on_string_skus (sales : List SalesRow) (inv : List InvRow)
    (h : ∀ i ∈ inv, ∃ s, i.sku = SkuVal.strV s) :
    processFull sales inv = (sales, inv, process_inventory sales inv) := by
  unfold processFull
  have hmap : ∀ l : List InvRow, (∀ i ∈ l, ∃ s, i.sku = SkuVal.strV s) →
      l.map normalizeInv = l := by
    intro l hl
    induction l with
    | nil => rfl
    | cons i rest ih =>
        rw [List.map_cons, ih (fun j hj => hl j (List.mem_cons_of_mem i hj))]
        have hnorm : normalizeInv i = i := by
          obtain ⟨sku, stock, cost, margin⟩ := i
          obtain ⟨s, hs⟩ := hl _ (List.mem_cons_self _ rest)
          have hs' : sku = SkuVal.strV s := hs
          subst hs'
          rfl
        rw [hnorm]
  rw [hmap inv h]

/-- C8 witness: a run whose inventory SKUs are strings. -/
theorem c8_pure_on_string_skus_witness :
    processFull [] [invS] = ([], [invS], process_inventory [] [invS]) :=
  c8_pure_on_string_skus [] [invS]
    (by
      intro i hi
      rw [List.mem_singleton] at hi
      subst hi
      exact ⟨"S", rfl⟩)

/-- C8 counterexample: an integer SKU cell is rewritten in place to its
string form, so the caller's inventory table is not left unchanged. -/
theorem c8_counterexample :
    (processFull [] [⟨SkuVal.intV 7, 1, 1, 0⟩]).2.1 ≠
      [(⟨SkuVal.intV 7, 1, 1, 0⟩ : InvRow)] := by
  decide

/-- C10: every output row with velocity below 0.5 scores at least 30 (the
logistic base is positive and the +30 penalty survives the clamp); and a
never-sold row with zero stock has `days_of_cover = 0` and score exactly
`100 * logistic(-2) + 30`, which lies strictly between 41.9 and 41.95 —
not 0. -/
theorem c10_slow_mover_floor (sales : List SalesRow) (inv : List InvRow) (r : OutRow)
    (hr : r ∈ process_inventory sales inv) :
    (r.velocity < 1/2 → 30 ≤ deathRiskScore r) ∧
    ((∀ ru ∈ skuRollups sales, ru.sku ≠ r.sku) → r.stock = 0 →
      r.daysOfCover = 0 ∧ deathRiskScore r = 100 * expit (-2) + 30 ∧
      (41.9:ℝ) < deathRiskScore r ∧ deathRiskScore r < 41.95) := by
  constructor
  · intro hv
    have hpen : riskPenalty r = 30 := by
      unfold riskPenalty
      rw [if_pos hv]
    have hb : (0:ℝ) ≤ deathRiskBase r := by
      unfold deathRiskBase
      exact mul_nonneg (le_of_lt (expit_pos _)) (by norm_num)
    unfold deathRiskScore
    rw [hpen]
    push_cast
    refine le_min (by norm_num) (le_trans ?_ (le_max_right 0 _))
    linarith
  · intro hnm hstock
    obtain ⟨i, hi, hcase⟩ := mem_process_inventory hr
    rcases hcase with ⟨hms, rfl⟩ | ⟨ru, hru, rfl⟩
    swap
    · exact absurd (matchesFor_mem hru).2 (hnm ru (matchesFor_mem hru).1)
    have hst : i.stock = 0 := hstock
    have hcov : (enrich i none).daysOfCover = 0 := by
      rw [(enrich_none_fields i).2.2.2.2.2, hst]
      norm_num
    have hpen : riskPenalty (enrich i none) = 30 := by
      have hv : (enrich i none).velocity = 0 := rfl
      unfold riskPenalty
      rw [hv]
      norm_num
    have harg : (((enrich i none).daysOfCover : ℝ) - 60) / 30 = -2 := by
      rw [hcov]
      push_cast
      norm_num
    have hd : (0:ℝ) < 1 + Real.exp 2 := by positivity
    have he : expit (-2) < 1/2 := by
      unfold expit
      rw [neg_neg, div_lt_iff₀ hd]
      linarith [exp_two_gt]
    have hp := expit_pos (-2 : ℝ)
    have hval : deathRiskScore (enrich i none) = 100 * expit (-2) + 30 := by
      unfold deathRiskScore deathRiskBase
      rw [hpen, harg]
      push_cast
      rw [max_eq_right (by linarith), min_eq_right (by linarith)]
      ring
    have hexp2 : expit (-2) = 1 / (1 + Real.exp 2) := by
      unfold expit
      rw [neg_neg]
    have hgt : (11.9:ℝ) < 100 / (1 + Real.exp 2) :=
      (lt_div_iff₀ hd).mpr (by nlinarith [exp_two_lt])
    have hlt : (100:ℝ) / (1 + Real.exp 2) < 11.95 :=
      (div_lt_iff₀ hd).mpr (by nlinarith [exp_two_gt])
    have hform : 100 * expit (-2) + 30 = 100 / (1 + Real.exp 2) + 30 := by
      rw [hexp2]
      ring
    refine ⟨hcov, hval, ?_, ?_⟩
    · rw [hval, hform]
      linarith
    · rw [hval, hform]
      linarith

/-- C9: Scenario A — sales for item A1 of (day 0, 10 units, 100), (day 9,
20 units, 200), (day 19, 5 units, 50) and inventory stock 100, cost 40,
margin 0.5 yield one output row with `total_units_sold = 35`,
`period_days = 20`, `avg_daily_velocity = 1.75`,
`days_of_cover = 400/7 ≈ 57.14`, `sell_through_rate = 7/27 ≈ 0.2593`,
`selling_price = 80`, `stock_value = 8000`, no penalty, and a death-risk
score strictly between 47.5 and 47.7 (≈ 47.6). -/
theorem c9_scenario_a :
    process_inventory scenA_sales [scenA_i] = [scenA_row] ∧
    scenA_row.totalUnits = 35 ∧
    scenA_row.periodDays? = some 20 ∧
    scenA_row.velocity = 7/4 ∧
    scenA_row.daysOfCover = 400/7 ∧
    |scenA_row.daysOfCover - 5714/100| < 1/100 ∧
    scenA_row.sellThrough = 7/27 ∧
    |scenA_row.sellThrough - 2593/10000| < 1/10000 ∧
    scenA_row.sellingPrice = 80 ∧
    scenA_row.stockValue = 8000 ∧
    riskPenalty scenA_row = 0 ∧
    (47.5:ℝ) < deathRiskScore scenA_row ∧ deathRiskScore scenA_row < 47.7 := by
  have hg : salesGroup scenA_sales (SkuVal.strV "A1") = scenA_sales := by decide
  have htu : scenA_ru.totalUnits = 35 := by
    show ((salesGroup scenA_sales (SkuVal.strV "A1")).map SalesRow.units).sum = 35
    rw [hg]
    norm_num [scenA_sales]
  have hpd : scenA_ru.periodDays = 20 := by decide
  have hvel : scenA_ru.velocity = 7/4 := by
    have h1 : scenA_ru.velocity = scenA_ru.totalUnits / (scenA_ru.periodDays : Rat) := rfl
    rw [h1, htu, hpd]
    norm_num
  have hsku : scenA_ru.sku = "A1" := rfl
  have hrow_tu : scenA_row.totalUnits = 35 := htu
  have hrow_pd : scenA_row.periodDays? = some 20 := by
    rw [show scenA_row.periodDays? = some scenA_ru.periodDays from rfl, hpd]
  have hrow_v : scenA_row.velocity = 7/4 := hvel
  have hcov : scenA_row.daysOfCover = 400/7 := by
    have h2 : scenA_row.daysOfCover =
        scenA_i.stock / (if scenA_ru.velocity = 0 then (1/1000 : Rat) else scenA_ru.velocity) :=
      rfl
    rw [h2, hvel]
    norm_num [scenA_i]
  have hst : scenA_row.sellThrough = 7/27 := by
    have h3 : scenA_row.sellThrough =
        (if 0 < scenA_ru.totalUnits + scenA_i.stock
          then scenA_ru.totalUnits / (scenA_ru.totalUnits + scenA_i.stock) else 0) := rfl
    rw [h3, htu]
    norm_num [scenA_i]
  have hprice : scenA_row.sellingPrice = 80 := by
    have h4 : scenA_row.sellingPrice = scenA_i.cost / (1 - scenA_i.margin) := rfl
    rw [h4]
    norm_num [scenA_i]
  have hsv : scenA_row.stockValue = 8000 := by
    have h5 : scenA_row.stockValue = scenA_i.stock * (scenA_i.cost / (1 - scenA_i.margin)) := rfl
    rw [h5]
    norm_num [scenA_i]
  have hpen : riskPenalty scenA_row = 0 := by
    unfold riskPenalty
    rw [show scenA_row.velocity = scenA_ru.velocity from rfl, hvel]
    norm_num
  have hkeys : skuKeys scenA_sales = [SkuVal.strV "A1"] := by decide
  have hrolls : skuRollups scenA_sales = [scenA_ru] := by
    rw [skuRollups, hkeys]
    rfl
  have hms : matchesFor [scenA_ru] "A1" = [scenA_ru] := by
    simp [matchesFor, hsku]
  have hjoin : process_inventory scenA_sales [scenA_i] = [scenA_row] := by
    simp only [process_inventory, List.flatMap_cons, List.flatMap_nil, List.append_nil]
    rw [show scenA_i.sku.toStr = "A1" from rfl, hrolls, hms]
    simp [scenA_row]
  have harg : ((scenA_row.daysOfCover : ℝ) - 60) / 30 = -(2/21) := by
    rw [hcov]
    push_cast
    norm_num
  have ht := Real.exp_pos (2/21 : ℝ)
  have hd : (0:ℝ) < 1 + Real.exp (2/21) := by linarith
  have hsc : deathRiskScore scenA_row = 100 / (1 + Real.exp (2/21)) := by
    unfold deathRiskScore deathRiskBase
    rw [hpen, harg]
    push_cast
    unfold expit
    rw [neg_neg]
    have hone : 1 / (1 + Real.exp (2/21)) ≤ 1 := by
      rw [div_le_one hd]
      linarith
    have hnn : (0:ℝ) ≤ 1 / (1 + Real.exp (2/21)) * 100 + 0 := by positivity
    rw [max_eq_right hnn, min_eq_right (by linarith)]
    ring
  have h475 : (47.5:ℝ) < 100 / (1 + Real.exp (2/21)) :=
    (lt_div_iff₀ hd).mpr (by nlinarith [exp_221_lt])
  have h477 : (100:ℝ) / (1 + Real.exp (2/21)) < 47.7 :=
    (div_lt_iff₀ hd).mpr (by nlinarith [exp_221_gt])
  refine ⟨hjoin, hrow_tu, hrow_pd, hrow_v, hcov, ?_, hst, ?_, hprice, hsv, hpen,
    by rw [hsc]; exact h475, by rw [hsc]; exact h477⟩
  · rw [hcov, abs_lt]
    constructor <;> norm_num
  · rw [hst, abs_lt]
    constructor <;> norm_num

/-- C10 witness: a never-sold zero-stock item. -/
theorem c10_slow_mover_floor_witness :
    30 ≤ deathRiskScore (enrich invZ none) ∧
      deathRiskScore (enrich invZ none) = 100 * expit (-2) + 30 := by
  have h := c10_slow_mover_floor [] [invZ] (enrich invZ none)
    (by simp [process_inventory, skuRollups, skuKeys, matchesFor])
  refine ⟨h.1 ?_, (h.2 (by simp [skuRollups, skuKeys]) rfl).2.1⟩
  show (enrich invZ none).velocity < 1/2
  norm_num [enrich]

end Claims
